import Mathlib

/-!
Shallow embedding of the ez-rke terminal dashboard (src/app.rs, src/event.rs,
src/log.rs, src/config.rs) and proofs of the specification's claims about it.
Machine integers (u16, usize) are modelled as Nat; Rust's saturating_sub is
Nat subtraction; Vec push is list append; fallible calls return Except.
-/

namespace EzRke

/-- Crossterm key codes, restricted to the shapes the program inspects plus an
opaque catch-all for every other key (src/app.rs matches on Esc and Char). -/
inductive KeyCode
  | esc
  | enter
  | backspace
  | char (c : Char)
  | other (n : Nat)
deriving DecidableEq

/-- Crossterm modifier flags (bitflags SHIFT | CONTROL | ALT | SUPER modelled
as one Bool per flag). -/
structure KeyModifiers where
  shift : Bool
  control : Bool
  alt : Bool
  superKey : Bool
deriving DecidableEq

/-- The crossterm constant KeyModifiers::CONTROL: exactly the control bit set. -/
def KeyModifiers.CONTROL : KeyModifiers :=
  { shift := false, control := true, alt := false, superKey := false }

/-- Crossterm key-event kinds (src/event.rs compares against Press). -/
inductive KeyEventKind
  | press
  | release
  | keyRepeat
deriving DecidableEq

/-- A crossterm KeyEvent: code, modifier flags and kind. -/
structure KeyEvent where
  code : KeyCode
  modifiers : KeyModifiers
  kind : KeyEventKind
deriving DecidableEq

/-- A crossterm MouseEvent; the program never inspects its fields, so only the
coordinates are kept. -/
structure MouseEvent where
  column : Nat
  row : Nat
deriving DecidableEq

/-- Severity levels of tracing (src/log.rs uses tracing::Level). -/
inductive Level
  | trace
  | debug
  | info
  | warn
  | error
deriving DecidableEq

/-- LogEvent from src/log.rs: level, target, name, field map (HashMap modelled
as an association list), timestamp (opaque tick), optional span scope. -/
structure LogEvent where
  level : Level
  target : String
  name : String
  fields : List (String × String)
  timestamp : Nat
  span : Option String
deriving DecidableEq

/-- Event from src/event.rs: the multiplexed event type. -/
inductive Event
  | tick
  | key (k : KeyEvent)
  | mouse (m : MouseEvent)
  | resize (w h : Nat)
  | log (l : LogEvent)
  | invalid
deriving DecidableEq

/-- Servers from src/config.rs: control list, worker list, optional vip. -/
structure Servers where
  control : List String
  worker : List String
  vip : Option String
deriving DecidableEq

/-- Config from src/config.rs. -/
structure Config where
  servers : Servers
deriving DecidableEq

/-- The mutable fields of App (src/app.rs): running flag, debug flag, log
buffer and topology config.  The terminal handle and event channel are
modelled separately (see runLoop and Channel below). -/
structure App where
  running : Bool
  debug : Bool
  logs : List LogEvent
  config : Config
deriving DecidableEq

/-- App::handle_key_events (src/app.rs lines 227-246): Esc or q quits;
c or C quits only when the modifier state equals KeyModifiers::CONTROL;
d or D toggles the debug flag; everything else is a no-op. -/
def handle_key_events (app : App) (k : KeyEvent) : App :=
  match k.code with
  | KeyCode.esc => { app with running := false }
  | KeyCode.char c =>
    if c = 'q' then { app with running := false }
    else if c = 'c' ∨ c = 'C' then
      if k.modifiers = KeyModifiers.CONTROL then { app with running := false } else app
    else if c = 'd' ∨ c = 'D' then { app with debug := !app.debug }
    else app
  | _ => app

/-- One step of App::handle_events (src/app.rs lines 216-225): a Key event is
dispatched to the key interpreter, a Log event is pushed onto the log buffer,
Tick, Mouse, Resize and Invalid are no-ops. -/
def handle_event (app : App) (e : Event) : App :=
  match e with
  | Event.tick => app
  | Event.key k => handle_key_events app k
  | Event.mouse _ => app
  | Event.resize _ _ => app
  | Event.log l => { app with logs := app.logs ++ [l] }
  | Event.invalid => app

/-- Folding handle_event over a finite sequence of events, in arrival order. -/
def processEvents (app : App) (es : List Event) : App :=
  es.foldl handle_event app

/-- The Log payloads of an event sequence, in order. -/
def logPayloads (es : List Event) : List LogEvent :=
  es.filterMap fun e =>
    match e with
    | Event.log l => some l
    | _ => none

/-- Crossterm terminal events as read by the producer task in
EventHandler::new (src/event.rs lines 42-58). -/
inductive CrosstermEvent
  | key (k : KeyEvent)
  | mouse (m : MouseEvent)
  | resize (x y : Nat)
  | focusLost
  | focusGained
  | paste (s : String)
deriving DecidableEq

/-- The crossterm-event branch of the producer task in EventHandler::new
(src/event.rs lines 42-58): a Key event is forwarded only when its kind is
Press; Mouse and Resize are forwarded; FocusLost, FocusGained and Paste are
dropped.  `some e` means `e` is sent on the channel, `none` means nothing is
enqueued. -/
def producerHandle (e : CrosstermEvent) : Option Event :=
  match e with
  | CrosstermEvent.key k =>
    if k.kind = KeyEventKind.press then some (Event.key k) else none
  | CrosstermEvent.mouse m => some (Event.mouse m)
  | CrosstermEvent.resize x y => some (Event.resize x y)
  | CrosstermEvent.focusLost => none
  | CrosstermEvent.focusGained => none
  | CrosstermEvent.paste _ => none

/-- The flume unbounded MPSC channel (src/event.rs): a FIFO queue, with flags
recording whether every sender has been dropped (recv then fails) and whether
the receiver has been dropped (send then fails). -/
structure Channel where
  queue : List Event
  sendersClosed : Bool
  receiverClosed : Bool
deriving DecidableEq

/-- Result of flume's recv_async: the head of the queue, Disconnected when the
queue is drained and every sender is gone, or a pending suspension otherwise. -/
inductive RecvResult
  | ok (e : Event) (rest : List Event)
  | disconnected
  | pending
deriving DecidableEq

/-- flume recv_async on the channel state: FIFO dequeue of the oldest element;
errors with Disconnected only when the queue is empty and closed. -/
def recv_async (ch : Channel) : RecvResult :=
  match ch.queue with
  | e :: rest => RecvResult.ok e rest
  | [] => if ch.sendersClosed then RecvResult.disconnected else RecvResult.pending

/-- EventHandler::next (src/event.rs lines 67-69):
`self.rx.recv_async().await.unwrap_or(Event::Invalid)`.  Returns the dequeued
event and the remaining queue; a Disconnected error is replaced by the Invalid
sentinel instead of panicking. -/
def EventHandler.next (ch : Channel) : Event × List Event :=
  match recv_async ch with
  | RecvResult.ok e rest => (e, rest)
  | RecvResult.disconnected => (Event.invalid, [])
  | RecvResult.pending => (Event.invalid, [])

/-- flume Sender::send: enqueues at the tail, or fails (Except.error) when the
receiver has been dropped. -/
def Channel.send (ch : Channel) (e : Event) : Except Unit Channel :=
  if ch.receiverClosed then Except.error ()
  else Except.ok { ch with queue := ch.queue ++ [e] }

/-- TuiLayer::on_event (src/log.rs lines 126-137): converts the intercepted
diagnostic record to a LogEvent (taken here as already converted) and sends it
wrapped in Event::Log; `self.tx.send(..).ok()` discards a send failure, so the
function always returns a channel state and never escalates an error. -/
def TuiLayer.on_event (ch : Channel) (ev : LogEvent) : Channel :=
  match ch.send (Event.log ev) with
  | Except.ok next => next
  | Except.error _ => ch

/-- A screen rectangle (ratatui Rect with u16 fields as Nat). -/
structure Rect where
  x : Nat
  y : Nat
  width : Nat
  height : Nat
deriving DecidableEq

/-- Upper half of Layout::vertical([Percentage(50), Percentage(50)]). -/
def upperHalf (r : Rect) : Rect :=
  { r with height := r.height / 2 }

/-- Lower half of Layout::vertical([Percentage(50), Percentage(50)]). -/
def lowerHalf (r : Rect) : Rect :=
  { r with y := r.y + r.height / 2, height := r.height - r.height / 2 }

/-- Left column of Layout::horizontal([Min(20), Percentage(100)]): the
Configuration panel column (src/app.rs lines 103-104). -/
def confColumn (r : Rect) : Rect :=
  { r with width := min 20 r.width }

/-- Right remainder of Layout::horizontal([Min(20), Percentage(100)]): the
control-server area. -/
def controlServerColumn (r : Rect) : Rect :=
  { r with x := r.x + min 20 r.width, width := r.width - min 20 r.width }

/-- Top strip of Layout::vertical([Min(2), Percentage(100)]): the Vip panel
strip (src/app.rs lines 115-116). -/
def vipStrip (r : Rect) : Rect :=
  { r with height := min 2 r.height }

/-- Remainder below the Vip strip. -/
def belowVip (r : Rect) : Rect :=
  { r with y := r.y + min 2 r.height, height := r.height - min 2 r.height }

/-- Panel kinds of the layout plan. -/
inductive PanelKind
  | configuration
  | controlNodes
  | workerNodes
  | vipPanel
  | logsPanel
deriving DecidableEq

/-- A panel of the computed layout: its kind and screen region. -/
structure Panel where
  kind : PanelKind
  area : Rect
deriving DecidableEq

/-- The main area of App::draw (src/app.rs lines 68-101): the upper half of
the frame when the debug panel is shown, the whole frame otherwise. -/
def mainAreaOf (frame : Rect) (app : App) : Rect :=
  if app.debug then upperHalf frame else frame

/-- The control-server area after the Vip strip is carved off when a virtual
IP is configured (src/app.rs lines 114-145). -/
def csAreaOf (frame : Rect) (app : App) : Rect :=
  match app.config.servers.vip with
  | some _ => belowVip (controlServerColumn (mainAreaOf frame app))
  | none => controlServerColumn (mainAreaOf frame app)

/-- The layout computed by App::draw (src/app.rs lines 63-204), in render
order: when debug is set the frame is halved and the lower half holds the Logs
panel; the main area is split into the Configuration column and the
control-server area; a top strip of the latter holds the Vip panel when a
virtual IP is configured; when the worker list is non-empty the remaining area
is halved, the lower half holding the Worker Nodes panel; the Control Nodes
panel takes what is left. -/
def layoutPlan (frame : Rect) (app : App) : List Panel :=
  (if app.debug then [Panel.mk PanelKind.logsPanel (lowerHalf frame)] else [])
  ++ [Panel.mk PanelKind.configuration (confColumn (mainAreaOf frame app))]
  ++ (match app.config.servers.vip with
      | some _ =>
        [Panel.mk PanelKind.vipPanel (vipStrip (controlServerColumn (mainAreaOf frame app)))]
      | none => [])
  ++ (if app.config.servers.worker.isEmpty then []
      else [Panel.mk PanelKind.workerNodes (lowerHalf (csAreaOf frame app))])
  ++ [Panel.mk PanelKind.controlNodes
       (if app.config.servers.worker.isEmpty then csAreaOf frame app
        else upperHalf (csAreaOf frame app))]

/-- The area of the Logs panel: the lower half of the frame (src/app.rs
line 81, split[1] of the 50/50 vertical split). -/
def logPanelArea (frame : Rect) : Rect := lowerHalf frame

/-- Visible height of the Logs panel: its List is drawn inside a block with
Borders::ALL ^ Borders::TOP (src/app.rs line 213), whose bottom border
consumes one row, so the inner height of a log area of height h is h - 1
(saturating). -/
def logVisibleHeight (height : Nat) : Nat := height - 1

/-- The scroll offset set on the Logs ListState (src/app.rs lines 85-86):
`len.saturating_sub((height as usize).saturating_sub(1))` where height is the
height of the log area. -/
def logScrollOffset (len height : Nat) : Nat := len - (height - 1)

/-- The log records the List widget actually renders: items from the scroll
offset onward, clipped to the visible (inner) height, one line per record. -/
def renderedLogLines (logs : List LogEvent) (height : Nat) : List LogEvent :=
  (logs.drop (logScrollOffset logs.length height)).take (logVisibleHeight height)

/-- The full pure output of one App::draw call on a frame: the layout plan and
the clipped window of log records shown in the Logs panel (empty when the
debug panel is hidden). -/
def drawOutput (frame : Rect) (app : App) : List Panel × List LogEvent :=
  (layoutPlan frame app,
   if app.debug then renderedLogLines app.logs (logPanelArea frame).height else [])

/-- Outcome of the run loop: clean exit, a propagated fatal I/O error, or a
suspension waiting for an event (the finite event trace was exhausted). -/
inductive RunOutcome
  | ok
  | fatal (e : Nat)
  | blocked
deriving DecidableEq

/-- Result of running the loop: its outcome, whether ratatui::restore() was
called before returning, and how many draw calls completed. -/
structure RunResult where
  outcome : RunOutcome
  restored : Bool
  draws : Nat
deriving DecidableEq

/-- The while-loop of App::run (src/app.rs lines 54-60): while running, draw
(the result of the i-th terminal.draw call is drawRs i; on Err the `?`
operator returns the error at once, without reaching ratatui::restore()),
then handle the next event; when running is false the loop ends,
ratatui::restore() runs and Ok(()) is returned.  The finite event list stands
for the events the multiplexer will deliver; exhausting it while still
running models the loop suspending on next(). -/
def runLoop (drawRs : Nat → Except Nat Unit) :
    List Event → App → Nat → Nat → RunResult
  | [], app, drawIdx, draws =>
    if app.running then
      match drawRs drawIdx with
      | Except.error e => RunResult.mk (RunOutcome.fatal e) false draws
      | Except.ok _ => RunResult.mk RunOutcome.blocked false (draws + 1)
    else RunResult.mk RunOutcome.ok true draws
  | e :: rest, app, drawIdx, draws =>
    if app.running then
      match drawRs drawIdx with
      | Except.error er => RunResult.mk (RunOutcome.fatal er) false draws
      | Except.ok _ =>
        runLoop drawRs rest (handle_event app e) (drawIdx + 1) (draws + 1)
    else RunResult.mk RunOutcome.ok true draws

/-- App::run (src/app.rs lines 47-61): sets running to true, calls
terminal.clear()? (result clearR; on Err the error propagates with no
restore), then enters the draw/handle loop. -/
def run (app : App) (clearR : Except Nat Unit) (drawRs : Nat → Except Nat Unit)
    (events : List Event) : RunResult :=
  match clearR with
  | Except.error e => RunResult.mk (RunOutcome.fatal e) false 0
  | Except.ok _ => runLoop drawRs events { app with running := true } 0 0

/-- A concrete topology used to instantiate the theorems: two control nodes,
one worker and a virtual IP. -/
def sampleServers : Servers :=
  Servers.mk ["control-a", "control-b"] ["worker-a"] (some "10.0.0.5")

/-- A concrete running application state over the sample topology. -/
def sampleApp : App :=
  App.mk true false [] (Config.mk sampleServers)

/-- The sample application with the debug panel shown. -/
def sampleAppDebug : App :=
  App.mk true true [] (Config.mk sampleServers)

/-- The sample application after it has stopped. -/
def sampleAppStopped : App :=
  App.mk false false [] (Config.mk sampleServers)

/-- A concrete log record. -/
def sampleLog : LogEvent :=
  LogEvent.mk Level.info "ez_rke" "log-line" [("msg", "hello")] 3 none

/-- A concrete 80x24 frame. -/
def sampleFrame : Rect :=
  Rect.mk 0 0 80 24

/-- A key press of the given character with no modifiers. -/
def pressKey (c : Char) : KeyEvent :=
  KeyEvent.mk (KeyCode.char c) (KeyModifiers.mk false false false false) KeyEventKind.press

/-- A key press of the given character with exactly the control modifier. -/
def ctrlKey (c : Char) : KeyEvent :=
  KeyEvent.mk (KeyCode.char c) KeyModifiers.CONTROL KeyEventKind.press

/-! ## Theorems -/

/-- Helper: the key interpreter never touches the log buffer. -/
theorem handle_key_events_logs (app : App) (k : KeyEvent) :
    (handle_key_events app k).logs = app.logs := by
  obtain ⟨code, mods, kind⟩ := k
  cases code <;> simp only [handle_key_events] <;> (repeat' split) <;> rfl

/-- Helper: the key interpreter never touches the config. -/
theorem handle_key_events_config (app : App) (k : KeyEvent) :
    (handle_key_events app k).config = app.config := by
  obtain ⟨code, mods, kind⟩ := k
  cases code <;> simp only [handle_key_events] <;> (repeat' split) <;> rfl

/-- C1: with the debug panel shown, for every frame and log buffer the scroll
offset of the Logs panel equals max(0, n - visible_height), where
visible_height is the inner height of the Logs panel (its area height minus
the bottom border row), and the number of rendered log lines equals
min(n, visible_height), so the visible window anchors to the tail of the
buffer. -/
theorem logs_window_anchors_tail (frame : Rect) (logs : List LogEvent) :
    (logScrollOffset logs.length (logPanelArea frame).height : Int)
      = max 0 ((logs.length : Int) - (logVisibleHeight (logPanelArea frame).height : Int))
    ∧ (renderedLogLines logs (logPanelArea frame).height).length
      = min logs.length (logVisibleHeight (logPanelArea frame).height) := by
  constructor
  · unfold logScrollOffset logVisibleHeight
    omega
  · unfold renderedLogLines logScrollOffset logVisibleHeight
    simp only [List.length_take, List.length_drop]
    omega

/-- C3: the key interpreter sets running to false on Esc or q, and on c/C when
the modifier state is exactly the control modifier; d/D toggles the debug
flag, so two presses restore it; every other key event leaves the state
unchanged. -/
theorem key_interpreter_cases (app : App) (k : KeyEvent) :
    ((k.code = KeyCode.esc ∨ k.code = KeyCode.char 'q') →
      handle_key_events app k = { app with running := false })
    ∧ ((k.code = KeyCode.char 'c' ∨ k.code = KeyCode.char 'C') →
        k.modifiers = KeyModifiers.CONTROL →
        handle_key_events app k = { app with running := false })
    ∧ ((k.code = KeyCode.char 'd' ∨ k.code = KeyCode.char 'D') →
        handle_key_events app k = { app with debug := !app.debug })
    ∧ ((k.code = KeyCode.char 'd' ∨ k.code = KeyCode.char 'D') →
        (handle_key_events (handle_key_events app k) k).debug = app.debug)
    ∧ (k.code ≠ KeyCode.esc → k.code ≠ KeyCode.char 'q' →
        k.code ≠ KeyCode.char 'd' → k.code ≠ KeyCode.char 'D' →
        ((k.code = KeyCode.char 'c' ∨ k.code = KeyCode.char 'C') →
          k.modifiers ≠ KeyModifiers.CONTROL) →
        handle_key_events app k = app) := by
  obtain ⟨code, mods, kind⟩ := k
  refine ⟨?_, ?_, ?_, ?_, ?_⟩
  · rintro (h | h) <;> simp only at h <;> subst h <;>
      simp [handle_key_events]
  · rintro (h | h) hm <;> simp only at h hm <;> subst h <;> subst hm <;>
      simp [handle_key_events, KeyModifiers.CONTROL]
  · rintro (h | h) <;> simp only at h <;> subst h <;>
      simp [handle_key_events]
  · rintro (h | h) <;> simp only at h <;> subst h <;>
      simp [handle_key_events]
  · intro h1 h2 h3 h4 h5
    simp only at h1 h2 h3 h4 h5
    cases code with
    | esc => exact absurd rfl h1
    | char c =>
      have hq : ¬ c = 'q' := fun hc => h2 (by rw [hc])
      have hd : ¬ c = 'd' := fun hc => h3 (by rw [hc])
      have hD : ¬ c = 'D' := fun hc => h4 (by rw [hc])
      by_cases hc : c = 'c' ∨ c = 'C'
      · have hm : mods ≠ KeyModifiers.CONTROL := by
          apply h5
          rcases hc with hc | hc <;> [left; right] <;> rw [hc]
        simp [handle_key_events, hq, hc, hm]
      · simp [handle_key_events, hq, hc, hd, hD]
    | enter => rfl
    | backspace => rfl
    | other n => rfl

/-- C3 witness: the five cases of the key interpreter at concrete inputs. -/
theorem key_interpreter_cases_witness :
    handle_key_events sampleApp (pressKey 'q') = { sampleApp with running := false }
    ∧ handle_key_events sampleApp (ctrlKey 'c') = { sampleApp with running := false }
    ∧ handle_key_events sampleApp (pressKey 'd') = { sampleApp with debug := !sampleApp.debug }
    ∧ (handle_key_events (handle_key_events sampleApp (pressKey 'd')) (pressKey 'd')).debug
        = sampleApp.debug
    ∧ handle_key_events sampleApp (pressKey 'x') = sampleApp :=
  ⟨(key_interpreter_cases sampleApp (pressKey 'q')).1 (Or.inr rfl),
   (key_interpreter_cases sampleApp (ctrlKey 'c')).2.1 (Or.inl rfl) rfl,
   (key_interpreter_cases sampleApp (pressKey 'd')).2.2.1 (Or.inl rfl),
   (key_interpreter_cases sampleApp (pressKey 'd')).2.2.2.1 (Or.inl rfl),
   (key_interpreter_cases sampleApp (pressKey 'x')).2.2.2.2
     (by decide) (by decide) (by decide) (by decide) (by decide)⟩

/-- C4: processing any finite sequence of events appends exactly the payloads
of its Log events, in arrival order, to the end of the buffer; no other event
variant modifies the buffer and nothing is removed or reordered. -/
theorem log_buffer_is_arrival_sequence (app : App) (es : List Event) :
    (processEvents app es).logs = app.logs ++ logPayloads es := by
  induction es generalizing app with
  | nil => simp [processEvents, logPayloads]
  | cons e rest ih =>
    rw [processEvents, List.foldl_cons, ← processEvents, ih]
    cases e with
    | tick => simp [handle_event, logPayloads]
    | key k => simp [handle_event, logPayloads, handle_key_events_logs]
    | mouse m => simp [handle_event, logPayloads]
    | resize w h => simp [handle_event, logPayloads]
    | log l => simp [handle_event, logPayloads]
    | invalid => simp [handle_event, logPayloads]

/-- C5: the computed layout consists exactly of: a Logs panel at the lower
vertical half of the frame iff debug is true; the Configuration panel, always,
as the left column of the main area; a Vip panel at the top strip of the
control-server column iff a virtual IP is configured; a Worker Nodes panel at
the lower half of the remaining control-server area iff the worker list is
non-empty, with the Control Nodes panel, always present, taking the upper half
in that case and the whole remaining area otherwise. -/
theorem layout_panels_exact (frame : Rect) (app : App) :
    ((∃ r, Panel.mk PanelKind.logsPanel r ∈ layoutPlan frame app) ↔ app.debug = true)
    ∧ (app.debug = true →
        Panel.mk PanelKind.logsPanel (lowerHalf frame) ∈ layoutPlan frame app)
    ∧ Panel.mk PanelKind.configuration (confColumn (mainAreaOf frame app))
        ∈ layoutPlan frame app
    ∧ ((∃ r, Panel.mk PanelKind.vipPanel r ∈ layoutPlan frame app)
        ↔ (app.config.servers.vip).isSome = true)
    ∧ ((app.config.servers.vip).isSome = true →
        Panel.mk PanelKind.vipPanel (vipStrip (controlServerColumn (mainAreaOf frame app)))
          ∈ layoutPlan frame app)
    ∧ ((∃ r, Panel.mk PanelKind.workerNodes r ∈ layoutPlan frame app)
        ↔ app.config.servers.worker ≠ [])
    ∧ (app.config.servers.worker ≠ [] →
        Panel.mk PanelKind.workerNodes (lowerHalf (csAreaOf frame app))
          ∈ layoutPlan frame app)
    ∧ Panel.mk PanelKind.controlNodes
        (if app.config.servers.worker.isEmpty then csAreaOf frame app
         else upperHalf (csAreaOf frame app)) ∈ layoutPlan frame app := by
  obtain ⟨running, dbg, logs, ⟨⟨control, worker, vip⟩⟩⟩ := app
  cases dbg <;> cases vip <;> cases worker <;>
    simp [layoutPlan, mainAreaOf, csAreaOf]

/-- C5 witness: the characterization applied to the sample topology (vip set,
one worker) with the debug panel shown. -/
theorem layout_panels_exact_witness :
    Panel.mk PanelKind.logsPanel (lowerHalf sampleFrame)
      ∈ layoutPlan sampleFrame sampleAppDebug
    ∧ Panel.mk PanelKind.vipPanel
        (vipStrip (controlServerColumn (mainAreaOf sampleFrame sampleAppDebug)))
        ∈ layoutPlan sampleFrame sampleAppDebug
    ∧ Panel.mk PanelKind.workerNodes (lowerHalf (csAreaOf sampleFrame sampleAppDebug))
        ∈ layoutPlan sampleFrame sampleAppDebug :=
  ⟨(layout_panels_exact sampleFrame sampleAppDebug).2.1 rfl,
   (layout_panels_exact sampleFrame sampleAppDebug).2.2.2.2.1 rfl,
   (layout_panels_exact sampleFrame sampleAppDebug).2.2.2.2.2.2.1 (by decide)⟩

/-- Helper: once running is false, the loop exits at once, restoring the
terminal and drawing nothing further, whatever events remain. -/
theorem runLoop_not_running (drawRs : Nat → Except Nat Unit) (events : List Event)
    (app : App) (i d : Nat) (h : app.running = false) :
    runLoop drawRs events app i d = RunResult.mk RunOutcome.ok true d := by
  cases events <;> simp [runLoop, h]

/-- C6: the loop's running flag can only be cleared by the key interpreter
acting on a Key event (no other event variant changes it), and once an event
sets running to false the loop performs no further draw: it returns after
exactly the one draw that preceded that event, ignoring all later events, with
the terminal restored. -/
theorem stopped_only_via_key_interpreter :
    (∀ (app : App) (e : Event), app.running = true → (handle_event app e).running = false →
      ∃ k, e = Event.key k ∧ (handle_key_events app k).running = false)
    ∧ (∀ (app : App) (drawRs : Nat → Except Nat Unit) (e : Event) (post : List Event)
        (i d : Nat), (∀ j, drawRs j = Except.ok ()) → app.running = true →
        (handle_event app e).running = false →
        runLoop drawRs (e :: post) app i d
          = RunResult.mk RunOutcome.ok true (d + 1)) := by
  constructor
  · intro app e h1 h2
    cases e with
    | key k => exact ⟨k, rfl, h2⟩
    | tick => rw [handle_event] at h2; rw [h1] at h2; cases h2
    | mouse m => rw [handle_event] at h2; rw [h1] at h2; cases h2
    | resize w h => rw [handle_event] at h2; rw [h1] at h2; cases h2
    | log l => simp [handle_event] at h2; rw [h1] at h2; cases h2
    | invalid => rw [handle_event] at h2; rw [h1] at h2; cases h2
  · intro app drawRs e post i d hok hrun hstop
    rw [runLoop, hok i]
    simp only [hrun, if_true]
    exact runLoop_not_running drawRs post _ _ _ hstop

/-- C6 witness: pressing q while running terminates after the single pending
draw, with later events never drawn. -/
theorem stopped_only_via_key_interpreter_witness :
    (∃ k, Event.key (pressKey 'q') = Event.key k
        ∧ (handle_key_events sampleApp k).running = false)
    ∧ runLoop (fun _ => Except.ok ()) [Event.key (pressKey 'q'), Event.tick] sampleApp 0 0
        = RunResult.mk RunOutcome.ok true 1 :=
  ⟨stopped_only_via_key_interpreter.1 sampleApp (Event.key (pressKey 'q')) rfl (by decide),
   stopped_only_via_key_interpreter.2 sampleApp (fun _ => Except.ok ())
     (Event.key (pressKey 'q')) [Event.tick] 0 0 (fun _ => rfl) rfl (by decide)⟩

/-- C7: next() dequeues in first-enqueued-first-dequeued order: send enqueues
at the tail of the queue, next returns its head; and when the queue is drained
and every sender has terminated, next returns the Invalid sentinel instead of
blocking or panicking. -/
theorem next_fifo_and_invalid_on_close (ch : Channel) :
    (∀ e, ch.receiverClosed = false →
      Channel.send ch e = Except.ok { ch with queue := ch.queue ++ [e] })
    ∧ (∀ e rest, ch.queue = e :: rest → EventHandler.next ch = (e, rest))
    ∧ (ch.queue = [] → ch.sendersClosed = true →
        EventHandler.next ch = (Event.invalid, [])) := by
  refine ⟨?_, ?_, ?_⟩
  · intro e h
    simp [Channel.send, h]
  · intro e rest h
    simp [EventHandler.next, recv_async, h]
  · intro h hc
    simp [EventHandler.next, recv_async, h, hc]

/-- C7 witness: on a live two-element queue, send appends at the tail and next
pops the head; on a drained closed channel, next yields Invalid. -/
theorem next_fifo_and_invalid_on_close_witness :
    Channel.send (Channel.mk [Event.tick] false false) Event.invalid
      = Except.ok (Channel.mk [Event.tick, Event.invalid] false false)
    ∧ EventHandler.next (Channel.mk [Event.tick, Event.invalid] false false)
      = (Event.tick, [Event.invalid])
    ∧ EventHandler.next (Channel.mk [] true false) = (Event.invalid, []) :=
  ⟨(next_fifo_and_invalid_on_close (Channel.mk [Event.tick] false false)).1
     Event.invalid rfl,
   (next_fifo_and_invalid_on_close (Channel.mk [Event.tick, Event.invalid] false false)).2.1
     Event.tick [Event.invalid] rfl,
   (next_fifo_and_invalid_on_close (Channel.mk [] true false)).2.2 rfl rfl⟩

/-- C8: the bridge's send of a Log event is fire-and-forget: when the receiver
has been dropped the failure is discarded and the channel state is simply left
as it was — on_event always returns normally (it is a total function into
Channel, with no error to escalate); otherwise the record is enqueued. -/
theorem diagnostic_send_fire_and_forget (ch : Channel) (ev : LogEvent) :
    (ch.receiverClosed = true → TuiLayer.on_event ch ev = ch)
    ∧ (ch.receiverClosed = false →
        TuiLayer.on_event ch ev = { ch with queue := ch.queue ++ [Event.log ev] }) := by
  constructor <;> intro h <;> simp [TuiLayer.on_event, Channel.send, h]

/-- C8 witness: sending into a channel whose receiver is gone silently leaves
it unchanged; into a live channel it enqueues the record. -/
theorem diagnostic_send_fire_and_forget_witness :
    TuiLayer.on_event (Channel.mk [] false true) sampleLog = Channel.mk [] false true
    ∧ TuiLayer.on_event (Channel.mk [] false false) sampleLog
      = Channel.mk [Event.log sampleLog] false false :=
  ⟨(diagnostic_send_fire_and_forget (Channel.mk [] false true) sampleLog).1 rfl,
   (diagnostic_send_fire_and_forget (Channel.mk [] false false) sampleLog).2 rfl⟩

/-- C9: the render engine is a deterministic pure function of terminal size
and application state: two calls with identical inputs produce identical
output, and the output depends on nothing beyond the fields the draw code
reads (debug flag, log buffer, topology config) — in particular not on the
running flag. -/
theorem draw_deterministic_pure (frame : Rect) (s t : App) :
    drawOutput frame s = drawOutput frame s
    ∧ (s.debug = t.debug → s.logs = t.logs → s.config = t.config →
        drawOutput frame s = drawOutput frame t) := by
  refine ⟨rfl, ?_⟩
  intro h1 h2 h3
  simp only [drawOutput, layoutPlan, mainAreaOf, csAreaOf, h1, h2, h3]

/-- C9 witness: two states identical but for the running flag render
identically on the sample frame. -/
theorem draw_deterministic_pure_witness :
    drawOutput sampleFrame sampleApp = drawOutput sampleFrame sampleAppStopped :=
  (draw_deterministic_pure sampleFrame sampleApp sampleAppStopped).2 rfl rfl rfl

/-- C10: the producer task enqueues a Key event exactly when the underlying
key event's kind is Press; releases and repeats, as well as focus-gained,
focus-lost and paste events, enqueue nothing. -/
theorem producer_enqueues_only_key_presses :
    (∀ k : KeyEvent, producerHandle (CrosstermEvent.key k) = some (Event.key k)
        ↔ k.kind = KeyEventKind.press)
    ∧ (∀ k : KeyEvent, k.kind ≠ KeyEventKind.press →
        producerHandle (CrosstermEvent.key k) = none)
    ∧ producerHandle CrosstermEvent.focusLost = none
    ∧ producerHandle CrosstermEvent.focusGained = none
    ∧ (∀ s, producerHandle (CrosstermEvent.paste s) = none) := by
  refine ⟨?_, ?_, rfl, rfl, fun s => rfl⟩
  · intro k
    constructor
    · intro h
      by_contra hk
      simp [producerHandle, hk] at h
    · intro h
      simp [producerHandle, h]
  · intro k h
    simp [producerHandle, h]

/-- C10 witness: a press is enqueued, a release is dropped. -/
theorem producer_enqueues_only_key_presses_witness :
    producerHandle (CrosstermEvent.key (pressKey 'a')) = some (Event.key (pressKey 'a'))
    ∧ producerHandle (CrosstermEvent.key
        (KeyEvent.mk (KeyCode.char 'a') (KeyModifiers.mk false false false false)
          KeyEventKind.release)) = none :=
  ⟨(producer_enqueues_only_key_presses.1 (pressKey 'a')).2 rfl,
   producer_enqueues_only_key_presses.2.1
     (KeyEvent.mk (KeyCode.char 'a') (KeyModifiers.mk false false false false)
       KeyEventKind.release) (by decide)⟩

/-- C2 evidence: when the very first terminal.draw call fails, App::run
propagates the fatal error immediately via the question-mark operator without
ever reaching ratatui::restore() — the terminal is left un-restored on this
error path, even though the loop still had an event pending. -/
theorem run_draw_error_skips_restore :
    run sampleApp (Except.ok ()) (fun _ => Except.error 7) [Event.tick]
      = RunResult.mk (RunOutcome.fatal 7) false 0 := rfl

end EzRke
